import Mathlib

/-!
# MXQL Validator — shallow embedding

A shallow embedding of `src/mxql/mxql_validator.py` (class `MXQLValidator`)
over `List Char` text, together with theorems settling the frozen claims
about its specification.  All text is represented as `List Char`; string
literals enter through `String.data`.
-/

set_option maxRecDepth 4000

namespace MXQL

/-! ## Data model (`Severity`, `ValidationIssue`) -/

/-- `class Severity(Enum)` with members CRITICAL, WARNING, INFO. -/
inductive Severity
  | CRITICAL
  | WARNING
  | INFO
deriving DecidableEq, Repr

/-- `@dataclass class ValidationIssue`: severity, line, message, optional
suggestion.  Messages and suggestions are char lists. -/
structure ValidationIssue where
  severity : Severity
  line : Nat
  message : List Char
  suggestion : Option (List Char)
deriving DecidableEq, Repr

/-! ## Character classes

Python `str.strip()` and the regex classes `\s`, `\w`, `\d` restricted to
ASCII (the validator only ever feeds them ASCII keywords and query text). -/

/-- ASCII whitespace as recognized by Python `str.strip()` / regex `\s`. -/
def isPySpace (c : Char) : Bool :=
  c == ' ' || c == '\t' || c == '\n' || c == '\r' || c == '\x0b' || c == '\x0c'

/-- Regex `\w` (ASCII). -/
def isWordChar (c : Char) : Bool :=
  c.isAlpha || c.isDigit || c == '_'

/-- Regex `\d` (ASCII). -/
def isDigitChar (c : Char) : Bool := c.isDigit

/-- `s.strip()`: drop `isPySpace` characters from both ends. -/
def pyStrip (l : List Char) : List Char :=
  ((l.dropWhile isPySpace).reverse.dropWhile isPySpace).reverse

/-- `s.split('\n')`.  Always returns at least one chunk, like Python. -/
def splitLines : List Char → List (List Char)
  | [] => [[]]
  | c :: cs =>
    if c = '\n' then [] :: splitLines cs
    else
      match splitLines cs with
      | h :: t => (c :: h) :: t
      | [] => [[c]]

/-! ## Line classifier (`MXQLValidator.COMMANDS` and `_parse_commands`) -/

/-- The closed command set of the `COMMANDS` table. -/
inductive Cmd
  | CATEGORY | TAGLOAD | FLEXLOAD | OID | SELECT | FILTER | GROUP | UPDATE
  | ORDER | LIMIT | CREATE | DELETE | RENAME | FORMAT | UNFOLD | JOIN
  | APPEND | SUB | END | ADDROW | TIMEADD | TIMEPAST | HvText
deriving DecidableEq, Repr

/-- The required line-start shape of each pattern after its keyword:
`braceBody` is `\s+\{.*\}`, `bracketBody` is `\s+\[.*\]`, `bare` is `\s*$`,
`numArg` is `\s+\d+`, `wordArg` is `\s+\w+`. -/
inductive Shape
  | braceBody | bracketBody | bare | numArg | wordArg
deriving DecidableEq, Repr

/-- The keyword text of each pattern (`FLEX-LOAD` carries the hyphen). -/
def cmdKeyword : Cmd → List Char
  | .CATEGORY => "CATEGORY".data
  | .TAGLOAD => "TAGLOAD".data
  | .FLEXLOAD => "FLEX-LOAD".data
  | .OID => "OID".data
  | .SELECT => "SELECT".data
  | .FILTER => "FILTER".data
  | .GROUP => "GROUP".data
  | .UPDATE => "UPDATE".data
  | .ORDER => "ORDER".data
  | .LIMIT => "LIMIT".data
  | .CREATE => "CREATE".data
  | .DELETE => "DELETE".data
  | .RENAME => "RENAME".data
  | .FORMAT => "FORMAT".data
  | .UNFOLD => "UNFOLD".data
  | .JOIN => "JOIN".data
  | .APPEND => "APPEND".data
  | .SUB => "SUB".data
  | .END => "END".data
  | .ADDROW => "ADDROW".data
  | .TIMEADD => "TIMEADD".data
  | .TIMEPAST => "TIMEPAST".data
  | .HvText => "HvText".data

/-- The shape of each pattern in the `COMMANDS` table. -/
def cmdShape : Cmd → Shape
  | .CATEGORY => .braceBody
  | .TAGLOAD => .bare
  | .FLEXLOAD => .braceBody
  | .OID => .bracketBody
  | .SELECT => .bracketBody
  | .FILTER => .braceBody
  | .GROUP => .braceBody
  | .UPDATE => .braceBody
  | .ORDER => .braceBody
  | .LIMIT => .numArg
  | .CREATE => .braceBody
  | .DELETE => .bracketBody
  | .RENAME => .braceBody
  | .FORMAT => .braceBody
  | .UNFOLD => .bracketBody
  | .JOIN => .braceBody
  | .APPEND => .braceBody
  | .SUB => .braceBody
  | .END => .bare
  | .ADDROW => .braceBody
  | .TIMEADD => .braceBody
  | .TIMEPAST => .wordArg
  | .HvText => .braceBody

/-- `COMMANDS` in Python dict insertion order (first match wins). -/
def cmdList : List Cmd :=
  [.CATEGORY, .TAGLOAD, .FLEXLOAD, .OID, .SELECT, .FILTER, .GROUP, .UPDATE,
   .ORDER, .LIMIT, .CREATE, .DELETE, .RENAME, .FORMAT, .UNFOLD, .JOIN,
   .APPEND, .SUB, .END, .ADDROW, .TIMEADD, .TIMEPAST, .HvText]

/-- Consume `kw` case-insensitively (re.IGNORECASE on ASCII keywords) at the
start of `l`, returning the remainder on success. -/
def matchKeywordCI : List Char → List Char → Option (List Char)
  | [], l => some l
  | _ :: _, [] => none
  | k :: ks, c :: cs =>
    if c.toLower = k.toLower then matchKeywordCI ks cs else none

/-- `\s+X.*Y` after the keyword: at least one whitespace char, the first
non-whitespace char is the opener, and the closer occurs somewhere after. -/
def shapeBody (o c : Char) (rest : List Char) : Bool :=
  match rest with
  | [] => false
  | r :: _ =>
    isPySpace r &&
      (match rest.dropWhile isPySpace with
       | a :: as => a == o && as.contains c
       | [] => false)

/-- `\s+C` after the keyword for a character class `C` (`\d`, `\w`). -/
def shapeArg (p : Char → Bool) (rest : List Char) : Bool :=
  match rest with
  | [] => false
  | r :: _ =>
    isPySpace r &&
      (match rest.dropWhile isPySpace with
       | a :: _ => p a
       | [] => false)

/-- Whether the remainder after a keyword satisfies the pattern's shape. -/
def matchShape : Shape → List Char → Bool
  | .bare, rest => rest.all isPySpace
  | .braceBody, rest => shapeBody '{' '}' rest
  | .bracketBody, rest => shapeBody '[' ']' rest
  | .numArg, rest => shapeArg isDigitChar rest
  | .wordArg, rest => shapeArg isWordChar rest

/-- `re.match(pattern, line, re.IGNORECASE)` for one command. -/
def matchesCmd (cmd : Cmd) (line : List Char) : Bool :=
  match matchKeywordCI (cmdKeyword cmd) line with
  | some rest => matchShape (cmdShape cmd) rest
  | none => false

/-- First matching command in table order, or `none` (the inner `for`/`break`
of `_parse_commands`). -/
def classify (line : List Char) : Option Cmd :=
  cmdList.find? (fun cmd => matchesCmd cmd line)

/-- Lines skipped by `_parse_commands`: empty, `#`, `//`, `--`, `/*`. -/
def skipParse (s : List Char) : Bool :=
  s.isEmpty || "#".data.isPrefixOf s || "//".data.isPrefixOf s ||
    "--".data.isPrefixOf s || "/*".data.isPrefixOf s

/-- One `(line_num, command_name, full_line)` tuple of `self.commands`. -/
structure CommandEntry where
  line : Nat
  name : Cmd
  raw : List Char
deriving DecidableEq, Repr

/-- `_parse_commands` over lines numbered from `i`. -/
def parseAux (i : Nat) : List (List Char) → List CommandEntry
  | [] => []
  | l :: ls =>
    let s := pyStrip l
    (if skipParse s then []
     else
       match classify s with
       | some cmd => [⟨i, cmd, s⟩]
       | none => []) ++ parseAux (i + 1) ls

/-- `_parse_commands` (lines enumerated from 1). -/
def parseCommands (lines : List (List Char)) : List CommandEntry :=
  parseAux 1 lines

/-! ## Structural checker (`_check_bracket_balance`, `_check_json_structure`) -/

/-- Opening delimiters (`pairs` keys). -/
def isOpenDelim (c : Char) : Bool := c == '[' || c == '{' || c == '('

/-- Closing delimiters (`closing`). -/
def isCloseDelim (c : Char) : Bool := c == ']' || c == '}' || c == ')'

/-- Any delimiter character. -/
def isDelim (c : Char) : Bool := isOpenDelim c || isCloseDelim c

/-- `pairs[c]`: the matching closer of an opener. -/
def pairClose : Char → Char
  | '[' => ']'
  | '{' => '}'
  | '(' => ')'
  | c => c

/-- The three ways `_check_bracket_balance` can fail on one line (the check
appends at most one issue per line and then returns). -/
inductive BalErr
  | unmatched (c : Char)
  | mismatch (expected found : Char)
  | unclosed (top : Char)
deriving DecidableEq, Repr

/-- The character-by-character scan of `_check_bracket_balance`: `stack` holds
pushed openers (top first; Python `stack[-1]` is the head), `inString` is the
single quote-toggled flag, `esc` means the previous char was a backslash. -/
def rawScan : List Char → List Char → Bool → Bool → Option BalErr
  | [], [], _, _ => none
  | [], top :: _, _, _ => some (.unclosed top)
  | c :: cs, stack, inString, esc =>
    if esc then rawScan cs stack inString false
    else if c = '\\' then rawScan cs stack inString true
    else if c = '"' ∨ c = '\'' then rawScan cs stack (!inString) esc
    else if inString then rawScan cs stack inString esc
    else if isOpenDelim c then rawScan cs (c :: stack) inString esc
    else if isCloseDelim c then
      match stack with
      | [] => some (.unmatched c)
      | top :: rest =>
        if pairClose top = c then rawScan cs rest inString esc
        else some (.mismatch (pairClose top) c)
    else rawScan cs stack inString esc

/-- Message of the "Unmatched closing bracket" issue. -/
def unmatchedMsg (c : Char) : List Char :=
  "Unmatched closing bracket \x27".data ++ ([c] ++ "\x27".data)

/-- Message of the "Mismatched brackets" issue. -/
def mismatchMsg (e f : Char) : List Char :=
  "Mismatched brackets: expected \x27".data ++
    ([e] ++ ("\x27 but found \x27".data ++ ([f] ++ "\x27".data)))

/-- Message of the "Unclosed bracket" issue. -/
def unclosedMsg (c : Char) : List Char :=
  "Unclosed bracket \x27".data ++ ([c] ++ "\x27".data)

/-- `ValidationIssue` built for each `BalErr` (severity CRITICAL, with the
suggestions of the source). -/
def errToIssue (n : Nat) : BalErr → ValidationIssue
  | .unmatched c =>
    ⟨.CRITICAL, n, unmatchedMsg c,
      some "Remove extra closing bracket or add opening bracket".data⟩
  | .mismatch e f =>
    ⟨.CRITICAL, n, mismatchMsg e f,
      some ("Change \x27".data ++ [f] ++ "\x27 to \x27".data ++ [e] ++ "\x27".data)⟩
  | .unclosed c =>
    ⟨.CRITICAL, n, unclosedMsg c,
      some ("Add closing bracket \x27".data ++ [pairClose c] ++ "\x27".data)⟩

/-- `_check_bracket_balance` on a (stripped) line numbered `n`. -/
def checkBracketBalance (n : Nat) (line : List Char) : Option ValidationIssue :=
  (rawScan line [] false false).map (errToIssue n)

/-- Last-`'}'`-terminated prefix: everything of `cs` up to and including the
last `'}'` (the greedy end of `re.search(r'\{.*\}', line)`). -/
def takeToLastBrace (cs : List Char) : List Char :=
  (cs.reverse.dropWhile (fun c => c != '}')).reverse

/-- `re.search(r'\{.*\}', line)`: leftmost `'{'` that has a `'}'` after it,
greedy to the last `'}'` of the line. -/
def jsonSpan : List Char → Option (List Char)
  | [] => none
  | c :: cs =>
    if c = '{' ∧ cs.contains '}' then some ('{' :: takeToLastBrace cs)
    else jsonSpan cs

/-- After a trigger char: `\s*(\w+)\s*:` — returns the captured word. -/
def tryField (cs : List Char) : Option (List Char) :=
  let cs1 := cs.dropWhile isPySpace
  let name := cs1.takeWhile isWordChar
  let cs2 := (cs1.dropWhile isWordChar).dropWhile isPySpace
  if name ≠ [] ∧ cs2.head? = some ':' then some name else none

/-- `re.findall` of `\{\s*(\w+)\s*:` (trigger `'{'`) or `,\s*(\w+)\s*:`
(trigger `','`).  Scanning position by position is equivalent to findall's
non-overlapping scan because a matched span never contains another trigger
(its interior is whitespace, word chars and a colon). -/
def scanFields (trig : Char) : List Char → List (List Char)
  | [] => []
  | c :: cs =>
    (if c = trig then
      match tryField cs with
      | some name => [name]
      | none => []
     else []) ++ scanFields trig cs

/-- Message of the unquoted-field-names INFO issue. -/
def jsonMsg : List Char :=
  "Field names without quotes (valid but not recommended for readability)".data

/-- `_check_json_structure` on a (stripped) line numbered `n`. -/
def checkJsonStructure (n : Nat) (line : List Char) : Option ValidationIssue :=
  match jsonSpan line with
  | none => none
  | some j =>
    let unquoted := scanFields '{' j ++ scanFields ',' j
    if unquoted = [] then none
    else
      some ⟨.INFO, n, jsonMsg,
        some ("Consider using quotes: ".data ++ List.intercalate ", ".data unquoted)⟩

/-- Lines skipped by `_check_syntax`: empty, `#`, `//` (note: unlike
`_parse_commands`, lines starting `--` or `/*` are still checked). -/
def skipSyntax (s : List Char) : Bool :=
  s.isEmpty || "#".data.isPrefixOf s || "//".data.isPrefixOf s

/-- `_check_syntax` over lines numbered from `i`. -/
def checkSyntaxAux (i : Nat) : List (List Char) → List ValidationIssue
  | [] => []
  | l :: ls =>
    let s := pyStrip l
    (if skipSyntax s then []
     else
       (checkBracketBalance i s).toList ++
         (if s.contains '{' then (checkJsonStructure i s).toList else [])) ++
      checkSyntaxAux (i + 1) ls

/-- `_check_syntax` (lines enumerated from 1). -/
def checkSyntax (lines : List (List Char)) : List ValidationIssue :=
  checkSyntaxAux 1 lines

/-! ## Semantic rule engine (`_check_semantics`) -/

/-- `data_loaders = {'TAGLOAD', 'FLEX-LOAD', 'ADDROW', 'APPEND'}`. -/
def dataLoaders : List Cmd := [.TAGLOAD, .FLEXLOAD, .ADDROW, .APPEND]

/-- The missing-data-loader CRITICAL issue (anchored at line 1). -/
def missingLoaderIssue : ValidationIssue :=
  ⟨.CRITICAL, 1,
    "Missing data loader command (TAGLOAD, FLEX-LOAD, ADDROW, or APPEND)".data,
    some "Add TAGLOAD after CATEGORY command".data⟩

/-- `_check_required_commands`. -/
def checkRequiredCommands (cmds : List CommandEntry) : List ValidationIssue :=
  let names := cmds.map (·.name)
  if ¬ (∃ n ∈ names, n ∈ dataLoaders) ∧ Cmd.SUB ∉ names
  then [missingLoaderIssue]
  else []

/-- Python substring containment `pat in s`. -/
def containsSub (pat s : List Char) : Bool :=
  decide (pat <:+: s)

/-- `'$category' in cmd[2] for cmd in self.commands` — note: the scan is over
the classified command entries' raw text, not over all raw lines. -/
def hasCategoryRef (cmds : List CommandEntry) : Bool :=
  cmds.any (fun c => containsSub "$category".data c.raw)

/-- The data-loader-before-CATEGORY WARNING issue at line `n`. -/
def orderWarnIssue (n : Nat) : ValidationIssue :=
  ⟨.WARNING, n, "Data loader before CATEGORY command".data,
    some "Move CATEGORY command before TAGLOAD/FLEX-LOAD".data⟩

/-- `_check_command_order` with the accumulated `prev_commands` names;
`all` is the full `self.commands` list used by the `$category` scan. -/
def checkCommandOrderAux (all : List CommandEntry) :
    List CommandEntry → List Cmd → List ValidationIssue
  | [], _ => []
  | c :: rest, prev =>
    (if (c.name = .TAGLOAD ∨ c.name = .FLEXLOAD) ∧ Cmd.CATEGORY ∉ prev
     then if hasCategoryRef all then [] else [orderWarnIssue c.line]
     else []) ++ checkCommandOrderAux all rest (prev ++ [c.name])

/-- `_check_command_order`. -/
def checkCommandOrder (cmds : List CommandEntry) : List ValidationIssue :=
  checkCommandOrderAux cmds cmds []

/-- The UPDATE-without-GROUP CRITICAL issue at line `n`. -/
def updateIssue (n : Nat) : ValidationIssue :=
  ⟨.CRITICAL, n, "UPDATE command without preceding GROUP".data,
    some "Add GROUP command before UPDATE".data⟩

/-- `_check_update_requires_group` with the `group_found` flag. -/
def checkUpdateAux (groupFound : Bool) : List CommandEntry → List ValidationIssue
  | [] => []
  | c :: rest =>
    if c.name = .GROUP then checkUpdateAux true rest
    else if c.name = .UPDATE then
      (if groupFound then [] else [updateIssue c.line]) ++ checkUpdateAux groupFound rest
    else checkUpdateAux groupFound rest

/-- `_check_update_requires_group`. -/
def checkUpdateRequiresGroup (cmds : List CommandEntry) : List ValidationIssue :=
  checkUpdateAux false cmds

/-- The f-string message `f"Mismatched SUB/END: {sub_count} SUB commands,
{end_count} END commands"`. -/
def subEndMsg (s e : Nat) : List Char :=
  "Mismatched SUB/END: ".data ++
    (Nat.toDigits 10 s ++ (" SUB commands, ".data ++
      (Nat.toDigits 10 e ++ " END commands".data)))

/-- The SUB/END-count CRITICAL issue (anchored at line 1). -/
def subEndIssue (s e : Nat) : ValidationIssue :=
  ⟨.CRITICAL, 1, subEndMsg s e, some "Ensure each SUB has a matching END".data⟩

/-- `_check_sub_end_pairing`. -/
def checkSubEndPairing (cmds : List CommandEntry) : List ValidationIssue :=
  let subCount := cmds.countP (fun c => c.name == Cmd.SUB)
  let endCount := cmds.countP (fun c => c.name == Cmd.END)
  if subCount ≠ endCount then [subEndIssue subCount endCount] else []

/-- `re.search(r'\bkey\s*:', s)` for a given word (case-sensitive): some
occurrence of `word` at a `\b` boundary followed by `\s*` then `':'`.
`prev` is the character before the current position, if any. -/
def hasParamAux (word : List Char) (prev : Option Char) : List Char → Bool
  | [] => false
  | c :: cs =>
    ((match prev with
      | none => true
      | some p => !isWordChar p) &&
     (match matchKeywordExact word (c :: cs) with
      | some rest => (rest.dropWhile isPySpace).head? == some ':'
      | none => false)) ||
      hasParamAux word (some c) cs
where
  /-- Consume `word` literally at the start of `l`. -/
  matchKeywordExact : List Char → List Char → Option (List Char)
    | [], l => some l
    | _ :: _, [] => none
    | k :: ks, c :: cs => if c = k then matchKeywordExact ks cs else none

/-- `re.search(r'\b<word>\s*:', s) is not None`. -/
def hasParam (word : List Char) (s : List Char) : Bool :=
  hasParamAux word none s

/-- The GROUP-uses-key CRITICAL issue at line `n`. -/
def groupKeyIssue (n : Nat) : ValidationIssue :=
  ⟨.CRITICAL, n,
    "GROUP uses \x27key\x27 parameter - should use \x27pk\x27 instead".data,
    some "Use GROUP \x7bpk: \"field\"\x7d or GROUP \x7btimeunit: \"5m\", pk: \"field\"\x7d".data⟩

/-- The GROUP-uses-value CRITICAL issue at line `n`. -/
def groupValueIssue (n : Nat) : ValidationIssue :=
  ⟨.CRITICAL, n,
    "GROUP uses \x27value\x27 parameter - this is UPDATE syntax, not GROUP".data,
    some "GROUP uses special keywords (pk, timeunit, first, last, merge, etc.), not key-value pairs".data⟩

/-- `_check_group_syntax`. -/
def checkGroupSyntax (cmds : List CommandEntry) : List ValidationIssue :=
  cmds.flatMap (fun c =>
    if c.name = .GROUP then
      (if hasParam "key".data c.raw then [groupKeyIssue c.line] else []) ++
        (if hasParam "value".data c.raw then [groupValueIssue c.line] else [])
    else [])

/-! ## Best-practice checks (`_check_best_practices`) -/

/-- The FILTER-after-GROUP WARNING issue at line `n`. -/
def filterIssue (n : Nat) : ValidationIssue :=
  ⟨.WARNING, n, "FILTER after GROUP - may impact performance".data,
    some "Move FILTER before GROUP for better performance".data⟩

/-- `_check_filter_placement` (the source also records the first SELECT
position but never uses it). -/
def checkFilterPlacement (cmds : List CommandEntry) : List ValidationIssue :=
  match cmds.findIdx? (fun c => c.name == Cmd.FILTER),
      cmds.findIdx? (fun c => c.name == Cmd.GROUP) with
  | some f, some g =>
    if g < f then
      match cmds.get? f with
      | some c => [filterIssue c.line]
      | none => []
    else []
  | _, _ => []

/-- The SELECT-[*] WARNING issue at line `n`. -/
def selectStarIssue (n : Nat) : ValidationIssue :=
  ⟨.WARNING, n, "SELECT [*] includes all fields - may impact performance".data,
    some "Select only needed fields explicitly".data⟩

/-- `_check_select_star`. -/
def checkSelectStar (cmds : List CommandEntry) : List ValidationIssue :=
  cmds.flatMap (fun c =>
    if c.name = .SELECT ∧ containsSub "[*]".data c.raw
    then [selectStarIssue c.line] else [])

/-- The LIMIT-without-ORDER INFO issue at line `n`. -/
def limitIssue (n : Nat) : ValidationIssue :=
  ⟨.INFO, n, "LIMIT without ORDER - results may be arbitrary".data,
    some "Add ORDER command before LIMIT for predictable Top-N results".data⟩

/-- `_check_limit_without_order`. -/
def checkLimitWithoutOrder (cmds : List CommandEntry) : List ValidationIssue :=
  let hasOrder := cmds.any (fun c => c.name == Cmd.ORDER)
  let hasLimit := cmds.any (fun c => c.name == Cmd.LIMIT)
  if hasLimit ∧ ¬ hasOrder then
    match cmds.find? (fun c => c.name == Cmd.LIMIT) with
    | some c => [limitIssue c.line]
    | none => []
  else []

/-! ## `MXQLValidator.validate` -/

/-- The full issue list of one validation run, in the order the checks
append: `_check_syntax`, `_check_semantics` (required commands, command
order, UPDATE/GROUP, SUB/END, GROUP syntax), `_check_best_practices`
(filter placement, SELECT [*], LIMIT/ORDER). -/
def allIssues (q : List Char) : List ValidationIssue :=
  let lines := splitLines (pyStrip q)
  let cmds := parseCommands lines
  checkSyntax lines ++
    (checkRequiredCommands cmds ++ checkCommandOrder cmds ++
      checkUpdateRequiresGroup cmds ++ checkSubEndPairing cmds ++
      checkGroupSyntax cmds) ++
    (checkFilterPlacement cmds ++ checkSelectStar cmds ++
      checkLimitWithoutOrder cmds)

/-- `MXQLValidator.validate`: `(is_valid, issues)` with
`is_valid = not any(issue.severity == CRITICAL)`. -/
def validate (q : List Char) : Bool × List ValidationIssue :=
  let issues := allIssues q
  (!(issues.any (fun i => i.severity == Severity.CRITICAL)), issues)

/-- The classified command sequence a validation run works on. -/
def queryCommands (q : List Char) : List CommandEntry :=
  parseCommands (splitLines (pyStrip q))

/-- The six-line end-to-end example query of the spec:
CATEGORY (pk: "host") / TAGLOAD / FILTER (cpu: >90) / GROUP (pk: "host") /
UPDATE (avg: cpu) / SELECT [host, cpu], newline-separated, with braces around
each parameter object. -/
def sampleQuery : List Char :=
  ("CATEGORY \x7bpk: \"host\"\x7d\nTAGLOAD\nFILTER \x7bcpu: >90\x7d\nGROUP \x7bpk: \"host\"\x7d\nUPDATE \x7bavg: cpu\x7d\nSELECT [host, cpu]").data

/-! ## Balance-scan analysis

The scan of `_check_bracket_balance` factors through the subsequence of
delimiter characters it actually interprets (outside quoted spans, not
escaped).  `effDelims` extracts that subsequence, `pureScan` is the plain
stack scan on it, and `Dyck` is the independent grammar of correctly nested
delimiter words. -/

/-- The delimiter characters the scan of `_check_bracket_balance` interprets,
given the `inString`/escape state: characters inside quoted spans or right
after a backslash are skipped exactly as in `rawScan`. -/
def effDelims : List Char → Bool → Bool → List Char
  | [], _, _ => []
  | c :: cs, inString, esc =>
    if esc then effDelims cs inString false
    else if c = '\\' then effDelims cs inString true
    else if c = '"' ∨ c = '\'' then effDelims cs (!inString) esc
    else if inString then effDelims cs inString esc
    else if isOpenDelim c then c :: effDelims cs inString esc
    else if isCloseDelim c then c :: effDelims cs inString esc
    else effDelims cs inString esc

/-- The stack scan restricted to a delimiter-only word. -/
def pureScan : List Char → List Char → Option BalErr
  | [], [] => none
  | [], top :: _ => some (.unclosed top)
  | c :: cs, stack =>
    if isOpenDelim c then pureScan cs (c :: stack)
    else if isCloseDelim c then
      match stack with
      | [] => some (.unmatched c)
      | top :: rest =>
        if pairClose top = c then pureScan cs rest
        else some (.mismatch (pairClose top) c)
    else pureScan cs stack

/-- Correctly nested words over the three delimiter pairs (`[`/`]`, `{`/`}`,
`(`/`)`): the Dyck language, stated independently of any scanning algorithm. -/
inductive Dyck : List Char → Prop
  | nil : Dyck []
  | wrap (o : Char) (ho : isOpenDelim o = true) {w : List Char} (hw : Dyck w) :
      Dyck (o :: (w ++ [pairClose o]))
  | append {a b : List Char} (ha : Dyck a) (hb : Dyck b) : Dyck (a ++ b)

lemma rawScan_eq_pureScan :
    ∀ (l : List Char) (stack : List Char) (inString esc : Bool),
      rawScan l stack inString esc = pureScan (effDelims l inString esc) stack := by
  intro l
  induction l with
  | nil => intro stack inString esc; cases stack <;> rfl
  | cons c cs ih =>
    intro stack inString esc
    simp only [rawScan, effDelims]
    split_ifs with h1 h2 h3 h4 h5 h6
    · exact ih stack inString false
    · exact ih stack inString true
    · exact ih stack (!inString) esc
    · exact ih stack inString esc
    · simp only [pureScan]
      rw [if_pos h5]
      exact ih (c :: stack) inString esc
    · simp only [pureScan]
      rw [if_neg h5, if_pos h6]
      cases stack with
      | nil => rfl
      | cons top rest =>
        show (if pairClose top = c then rawScan cs rest inString esc
              else some (BalErr.mismatch (pairClose top) c)) =
            (if pairClose top = c then pureScan (effDelims cs inString esc) rest
              else some (BalErr.mismatch (pairClose top) c))
        by_cases hm : pairClose top = c
        · rw [if_pos hm, if_pos hm]
          exact ih rest inString esc
        · rw [if_neg hm, if_neg hm]
    · exact ih stack inString esc

/-- An opener's closer is a closer and not an opener. -/
lemma pairClose_facts {o : Char} (ho : isOpenDelim o = true) :
    isOpenDelim (pairClose o) = false ∧ isCloseDelim (pairClose o) = true := by
  have : o = '[' ∨ o = '{' ∨ o = '(' := by
    revert ho
    simp only [isOpenDelim, Bool.or_eq_true, beq_iff_eq]
    tauto
  rcases this with h | h | h <;> subst h <;> exact ⟨rfl, rfl⟩

/-- The scan passes over a Dyck word without touching the outer stack. -/
lemma pureScan_dyck :
    ∀ {w : List Char}, Dyck w →
      ∀ (rest : List Char) (stack : List Char),
        pureScan (w ++ rest) stack = pureScan rest stack := by
  intro w hw
  induction hw with
  | nil => intro rest stack; rfl
  | @wrap o ho w hw ih =>
    intro rest stack
    have hassoc : (o :: (w ++ [pairClose o])) ++ rest
        = o :: (w ++ (pairClose o :: rest)) := by simp
    rw [hassoc]
    have h1 : pureScan (o :: (w ++ (pairClose o :: rest))) stack
        = pureScan (w ++ (pairClose o :: rest)) (o :: stack) := by
      simp only [pureScan]
      rw [if_pos ho]
    rw [h1, ih (pairClose o :: rest) (o :: stack)]
    obtain ⟨hno, hyes⟩ := pairClose_facts ho
    simp only [pureScan]
    rw [if_neg (by simp [hno]), if_pos hyes]
    simp
  | @append a b ha hb iha ihb =>
    intro rest stack
    rw [List.append_assoc, iha (b ++ rest) stack, ihb rest stack]

/-! ## Stripping lemmas -/

lemma dropWhile_head_false (p : Char → Bool) :
    ∀ (l : List Char) (a : Char) (t : List Char), l.dropWhile p = a :: t → p a = false := by
  intro l
  induction l with
  | nil => intro a t h; simp [List.dropWhile] at h
  | cons c cs ih =>
    intro a t h
    by_cases hc : p c
    · rw [List.dropWhile_cons_of_pos hc] at h
      exact ih a t h
    · rw [List.dropWhile_cons_of_neg hc] at h
      cases h
      simpa using hc

lemma dropWhile_eq_self_of_head (p : Char → Bool) (l : List Char)
    (h : ∀ (a : Char) (t : List Char), l = a :: t → p a = false) :
    l.dropWhile p = l := by
  cases l with
  | nil => rfl
  | cons c cs =>
    have hc : p c = false := h c cs rfl
    simp [List.dropWhile, hc]

lemma dropWhile_self_idem (p : Char → Bool) (l : List Char) :
    (l.dropWhile p).dropWhile p = l.dropWhile p :=
  dropWhile_eq_self_of_head p _ (fun a t h => dropWhile_head_false p l a t h)

lemma exists_append_dropWhile (p : Char → Bool) :
    ∀ l : List Char, ∃ v, l = v ++ l.dropWhile p := by
  intro l
  induction l with
  | nil => exact ⟨[], rfl⟩
  | cons c cs ih =>
    by_cases hc : p c
    · obtain ⟨v, hv⟩ := ih
      exact ⟨c :: v, by rw [List.dropWhile_cons_of_pos hc]; simpa using hv⟩
    · exact ⟨[], by rw [List.dropWhile_cons_of_neg hc]; rfl⟩

/-- `str.strip()` is idempotent. -/
theorem pyStrip_idem (l : List Char) : pyStrip (pyStrip l) = pyStrip l := by
  set p := isPySpace with hp
  set m := l.dropWhile p with hm
  have hx : pyStrip l = ((m.reverse.dropWhile p).reverse : List Char) := rfl
  have hhead : ∀ (a : Char) (t : List Char), pyStrip l = a :: t → p a = false := by
    intro a t h
    obtain ⟨v, hv⟩ := exists_append_dropWhile p m.reverse
    have hm2 : m = (m.reverse.dropWhile p).reverse ++ v.reverse := by
      calc m = m.reverse.reverse := by rw [List.reverse_reverse]
        _ = (v ++ m.reverse.dropWhile p).reverse := by rw [← hv]
        _ = (m.reverse.dropWhile p).reverse ++ v.reverse := by rw [List.reverse_append]
    rw [hx] at h
    rw [h] at hm2
    exact dropWhile_head_false p l a (t ++ v.reverse) (by rw [← hm, hm2]; simp)
  have hdrop : (pyStrip l).dropWhile p = pyStrip l :=
    dropWhile_eq_self_of_head p _ hhead
  show (((pyStrip l).dropWhile p).reverse.dropWhile p).reverse = pyStrip l
  rw [hdrop, hx, List.reverse_reverse, dropWhile_self_idem]

/-! ## Shape of the issues each check can emit -/

lemma checkBracketBalance_shape {n : Nat} {l : List Char} {i : ValidationIssue}
    (h : checkBracketBalance n l = some i) : ∃ e, i = errToIssue n e := by
  unfold checkBracketBalance at h
  cases hr : rawScan l [] false false with
  | none => rw [hr] at h; simp at h
  | some e => rw [hr] at h; simp at h; exact ⟨e, h.symm⟩

lemma checkJsonStructure_shape {n : Nat} {l : List Char} {i : ValidationIssue}
    (h : checkJsonStructure n l = some i) :
    i.severity = Severity.INFO ∧ i.message = jsonMsg := by
  unfold checkJsonStructure at h
  cases hj : jsonSpan l with
  | none => rw [hj] at h; simp at h
  | some j =>
    rw [hj] at h
    simp only at h
    split_ifs at h with hf
    all_goals simp at h
    exact h ▸ ⟨rfl, rfl⟩

lemma mem_checkSyntaxAux {i : ValidationIssue} :
    ∀ (k : Nat) (ls : List (List Char)), i ∈ checkSyntaxAux k ls →
      (∃ n e, i = errToIssue n e) ∨
        (i.severity = Severity.INFO ∧ i.message = jsonMsg) := by
  intro k ls
  induction ls generalizing k with
  | nil => intro h; simp [checkSyntaxAux] at h
  | cons l ls ih =>
    intro h
    simp only [checkSyntaxAux, List.mem_append] at h
    rcases h with h | h
    · split_ifs at h with hskip hbrace
      · simp at h
      · rcases List.mem_append.mp h with h | h
        · cases hb : checkBracketBalance k (pyStrip l) with
          | none => rw [hb] at h; simp at h
          | some j =>
            rw [hb] at h
            simp at h
            subst h
            exact Or.inl ⟨k, checkBracketBalance_shape hb⟩
        · cases hj : checkJsonStructure k (pyStrip l) with
          | none => rw [hj] at h; simp at h
          | some j =>
            rw [hj] at h
            simp at h
            subst h
            exact Or.inr (checkJsonStructure_shape hj)
      · rcases List.mem_append.mp h with h | h
        · cases hb : checkBracketBalance k (pyStrip l) with
          | none => rw [hb] at h; simp at h
          | some j =>
            rw [hb] at h
            simp at h
            subst h
            exact Or.inl ⟨k, checkBracketBalance_shape hb⟩
        · simp at h
    · exact ih (k + 1) h

lemma mem_checkRequired {i : ValidationIssue} {cmds : List CommandEntry}
    (h : i ∈ checkRequiredCommands cmds) : i = missingLoaderIssue := by
  simp only [checkRequiredCommands] at h
  split_ifs at h
  · simpa using h
  · simp at h

lemma mem_checkCommandOrderAux_shape {i : ValidationIssue} {all : List CommandEntry} :
    ∀ (rest : List CommandEntry) (prev : List Cmd),
      i ∈ checkCommandOrderAux all rest prev → ∃ n, i = orderWarnIssue n := by
  intro rest
  induction rest with
  | nil => intro prev h; simp [checkCommandOrderAux] at h
  | cons c cs ih =>
    intro prev h
    simp only [checkCommandOrderAux, List.mem_append] at h
    rcases h with h | h
    · split_ifs at h with h1 h2
      · simp at h
      · simp at h
        exact ⟨c.line, h⟩
      · simp at h
    · exact ih _ h

lemma mem_checkUpdateAux_shape {i : ValidationIssue} :
    ∀ (g : Bool) (cmds : List CommandEntry),
      i ∈ checkUpdateAux g cmds → ∃ n, i = updateIssue n := by
  intro g cmds
  induction cmds generalizing g with
  | nil => intro h; simp [checkUpdateAux] at h
  | cons c cs ih =>
    intro h
    unfold checkUpdateAux at h
    split_ifs at h with h1 h2 h3
    · exact ih true h
    · rcases List.mem_append.mp h with h | h
      · simp at h
      · exact ih g h
    · rcases List.mem_append.mp h with h | h
      · simp at h
        exact ⟨c.line, h⟩
      · exact ih g h
    · exact ih g h

lemma mem_checkSubEnd_shape {i : ValidationIssue} {cmds : List CommandEntry}
    (h : i ∈ checkSubEndPairing cmds) : ∃ s e, i = subEndIssue s e := by
  simp only [checkSubEndPairing] at h
  split_ifs at h
  · exact ⟨_, _, by simpa using h⟩
  · simp at h

lemma mem_checkGroup_shape {i : ValidationIssue} {cmds : List CommandEntry}
    (h : i ∈ checkGroupSyntax cmds) :
    ∃ n, i = groupKeyIssue n ∨ i = groupValueIssue n := by
  unfold checkGroupSyntax at h
  rcases List.mem_flatMap.mp h with ⟨c, _, hc⟩
  split_ifs at hc
  · simp at hc
    rcases hc with hc | hc
    · exact ⟨c.line, Or.inl hc⟩
    · exact ⟨c.line, Or.inr hc⟩
  · simp at hc
    exact ⟨c.line, Or.inl hc⟩
  · simp at hc
    exact ⟨c.line, Or.inr hc⟩
  · simp at hc
  · simp at hc

lemma mem_checkFilter_shape {i : ValidationIssue} {cmds : List CommandEntry}
    (h : i ∈ checkFilterPlacement cmds) : ∃ n, i = filterIssue n := by
  unfold checkFilterPlacement at h
  split at h
  · split_ifs at h
    · split at h
      · simp at h
        exact ⟨_, h⟩
      · simp at h
    · simp at h
  · simp at h

lemma mem_checkStar_shape {i : ValidationIssue} {cmds : List CommandEntry}
    (h : i ∈ checkSelectStar cmds) : ∃ n, i = selectStarIssue n := by
  unfold checkSelectStar at h
  rcases List.mem_flatMap.mp h with ⟨c, _, hc⟩
  split_ifs at hc
  · simp at hc
    exact ⟨c.line, hc⟩
  · simp at hc

lemma mem_checkLimit_shape {i : ValidationIssue} {cmds : List CommandEntry}
    (h : i ∈ checkLimitWithoutOrder cmds) : ∃ n, i = limitIssue n := by
  simp only [checkLimitWithoutOrder] at h
  split_ifs at h
  · split at h
    · simp at h
      exact ⟨_, h⟩
    · simp at h
  · simp at h

/-! ## Distinguishing the issues of different checks -/

lemma issue_ne_of_severity {a b : ValidationIssue} (h : a.severity ≠ b.severity) :
    a ≠ b :=
  fun he => h (congrArg ValidationIssue.severity he)

lemma issue_ne_of_message {a b : ValidationIssue} (h : a.message ≠ b.message) :
    a ≠ b :=
  fun he => h (congrArg ValidationIssue.message he)

/-- Prefixes of the SUB/END message are prefixes of its leading literal. -/
lemma subEndMsg_take (a b : Nat) (k : Nat) (hk : k ≤ 20) :
    (subEndMsg a b).take k = ("Mismatched SUB/END: ".data).take k := by
  unfold subEndMsg
  exact List.take_append_of_le_length (by simpa using hk)

lemma errToIssue_ne_missing (n : Nat) (e : BalErr) :
    errToIssue n e ≠ missingLoaderIssue := by
  cases e with
  | unmatched c =>
    apply issue_ne_of_message
    intro h
    have hm := congrArg (List.take 1) h
    simp only [errToIssue, unmatchedMsg, missingLoaderIssue] at hm
    rw [List.take_append_of_le_length (by decide)] at hm
    exact absurd hm (by decide)
  | mismatch e f =>
    apply issue_ne_of_message
    intro h
    have hm := congrArg (List.take 4) h
    simp only [errToIssue, mismatchMsg, missingLoaderIssue] at hm
    rw [List.take_append_of_le_length (by decide)] at hm
    exact absurd hm (by decide)
  | unclosed c =>
    apply issue_ne_of_message
    intro h
    have hm := congrArg (List.take 1) h
    simp only [errToIssue, unclosedMsg, missingLoaderIssue] at hm
    rw [List.take_append_of_le_length (by decide)] at hm
    exact absurd hm (by decide)

lemma errToIssue_msg_ne_subEnd (n : Nat) (e : BalErr) (a b : Nat) :
    (errToIssue n e).message ≠ subEndMsg a b := by
  cases e with
  | unmatched c =>
    intro h
    have hm := congrArg (List.take 1) h
    rw [subEndMsg_take a b 1 (by decide)] at hm
    simp only [errToIssue, unmatchedMsg] at hm
    rw [List.take_append_of_le_length (by decide)] at hm
    exact absurd hm (by decide)
  | mismatch e f =>
    intro h
    have hm := congrArg (List.take 12) h
    rw [subEndMsg_take a b 12 (by decide)] at hm
    simp only [errToIssue, mismatchMsg] at hm
    rw [List.take_append_of_le_length (by decide)] at hm
    exact absurd hm (by decide)
  | unclosed c =>
    intro h
    have hm := congrArg (List.take 1) h
    rw [subEndMsg_take a b 1 (by decide)] at hm
    simp only [errToIssue, unclosedMsg] at hm
    rw [List.take_append_of_le_length (by decide)] at hm
    exact absurd hm (by decide)

/-- A message that is a plain literal differing from `"Mismatched SUB/END: "`
within its first `k ≤ 20` characters is never a SUB/END message. -/
lemma lit_msg_ne_subEnd {m : List Char} (k : Nat) (hk : k ≤ 20)
    (hne : m.take k ≠ ("Mismatched SUB/END: ".data).take k) (a b : Nat) :
    m ≠ subEndMsg a b := by
  intro h
  apply hne
  have := congrArg (List.take k) h
  rwa [subEndMsg_take a b k hk] at this

lemma missing_ne_subEndIssue (s e : Nat) : missingLoaderIssue ≠ subEndIssue s e :=
  issue_ne_of_message (lit_msg_ne_subEnd 4 (by decide) (by decide) s e)

/-! ## Zero counts of the missing-loader issue outside its own check -/

section MissingCounts

variable (q : List Char)

lemma countP_missing_structural (lines : List (List Char)) :
    (checkSyntax lines).countP (fun i => decide (i = missingLoaderIssue)) = 0 := by
  rw [List.countP_eq_zero]
  intro a ha
  simp only [decide_eq_true_eq]
  rcases mem_checkSyntaxAux 1 lines ha with ⟨n, e, rfl⟩ | ⟨hsev, _⟩
  · exact errToIssue_ne_missing n e
  · exact issue_ne_of_severity (by rw [hsev]; decide)

lemma countP_missing_order (all rest : List CommandEntry) (prev : List Cmd) :
    (checkCommandOrderAux all rest prev).countP
      (fun i => decide (i = missingLoaderIssue)) = 0 := by
  rw [List.countP_eq_zero]
  intro a ha
  simp only [decide_eq_true_eq]
  obtain ⟨n, rfl⟩ := mem_checkCommandOrderAux_shape rest prev ha
  exact issue_ne_of_severity (by simp [orderWarnIssue, missingLoaderIssue])

lemma countP_missing_update (g : Bool) (cmds : List CommandEntry) :
    (checkUpdateAux g cmds).countP (fun i => decide (i = missingLoaderIssue)) = 0 := by
  rw [List.countP_eq_zero]
  intro a ha
  simp only [decide_eq_true_eq]
  obtain ⟨n, rfl⟩ := mem_checkUpdateAux_shape g cmds ha
  exact issue_ne_of_message (by simp only [updateIssue, missingLoaderIssue]; decide)

lemma countP_missing_subEnd (cmds : List CommandEntry) :
    (checkSubEndPairing cmds).countP (fun i => decide (i = missingLoaderIssue)) = 0 := by
  rw [List.countP_eq_zero]
  intro a ha
  simp only [decide_eq_true_eq]
  obtain ⟨s, e, rfl⟩ := mem_checkSubEnd_shape ha
  exact fun h => missing_ne_subEndIssue s e h.symm

lemma countP_missing_group (cmds : List CommandEntry) :
    (checkGroupSyntax cmds).countP (fun i => decide (i = missingLoaderIssue)) = 0 := by
  rw [List.countP_eq_zero]
  intro a ha
  simp only [decide_eq_true_eq]
  obtain ⟨n, hn | hn⟩ := mem_checkGroup_shape ha
  · exact hn ▸ issue_ne_of_message (by simp only [groupKeyIssue, missingLoaderIssue]; decide)
  · exact hn ▸ issue_ne_of_message (by simp only [groupValueIssue, missingLoaderIssue]; decide)

lemma countP_missing_filter (cmds : List CommandEntry) :
    (checkFilterPlacement cmds).countP (fun i => decide (i = missingLoaderIssue)) = 0 := by
  rw [List.countP_eq_zero]
  intro a ha
  simp only [decide_eq_true_eq]
  obtain ⟨n, rfl⟩ := mem_checkFilter_shape ha
  exact issue_ne_of_severity (by simp [filterIssue, missingLoaderIssue])

lemma countP_missing_star (cmds : List CommandEntry) :
    (checkSelectStar cmds).countP (fun i => decide (i = missingLoaderIssue)) = 0 := by
  rw [List.countP_eq_zero]
  intro a ha
  simp only [decide_eq_true_eq]
  obtain ⟨n, rfl⟩ := mem_checkStar_shape ha
  exact issue_ne_of_severity (by simp [selectStarIssue, missingLoaderIssue])

lemma countP_missing_limit (cmds : List CommandEntry) :
    (checkLimitWithoutOrder cmds).countP (fun i => decide (i = missingLoaderIssue)) = 0 := by
  rw [List.countP_eq_zero]
  intro a ha
  simp only [decide_eq_true_eq]
  obtain ⟨n, rfl⟩ := mem_checkLimit_shape ha
  exact issue_ne_of_severity (by simp [limitIssue, missingLoaderIssue])

end MissingCounts

/-! ## Zero counts of the SUB/END issue outside its own check -/

section SubEndCounts

variable (s e : Nat)

lemma countP_subEnd_structural (lines : List (List Char)) :
    (checkSyntax lines).countP (fun i => decide (i = subEndIssue s e)) = 0 := by
  rw [List.countP_eq_zero]
  intro a ha
  simp only [decide_eq_true_eq]
  rcases mem_checkSyntaxAux 1 lines ha with ⟨n, e2, rfl⟩ | ⟨hsev, _⟩
  · exact issue_ne_of_message (errToIssue_msg_ne_subEnd n e2 s e)
  · exact issue_ne_of_severity (by rw [hsev]; simp [subEndIssue])

lemma countP_subEnd_required (cmds : List CommandEntry) :
    (checkRequiredCommands cmds).countP (fun i => decide (i = subEndIssue s e)) = 0 := by
  rw [List.countP_eq_zero]
  intro a ha
  simp only [decide_eq_true_eq]
  rw [mem_checkRequired ha]
  exact missing_ne_subEndIssue s e

lemma countP_subEnd_order (all rest : List CommandEntry) (prev : List Cmd) :
    (checkCommandOrderAux all rest prev).countP
      (fun i => decide (i = subEndIssue s e)) = 0 := by
  rw [List.countP_eq_zero]
  intro a ha
  simp only [decide_eq_true_eq]
  obtain ⟨n, rfl⟩ := mem_checkCommandOrderAux_shape rest prev ha
  exact issue_ne_of_severity (by simp [orderWarnIssue, subEndIssue])

lemma countP_subEnd_update (g : Bool) (cmds : List CommandEntry) :
    (checkUpdateAux g cmds).countP (fun i => decide (i = subEndIssue s e)) = 0 := by
  rw [List.countP_eq_zero]
  intro a ha
  simp only [decide_eq_true_eq]
  obtain ⟨n, rfl⟩ := mem_checkUpdateAux_shape g cmds ha
  exact issue_ne_of_message
    (lit_msg_ne_subEnd 1 (by decide) (by simp only [updateIssue]; decide) s e)

lemma countP_subEnd_group (cmds : List CommandEntry) :
    (checkGroupSyntax cmds).countP (fun i => decide (i = subEndIssue s e)) = 0 := by
  rw [List.countP_eq_zero]
  intro a ha
  simp only [decide_eq_true_eq]
  obtain ⟨n, hn | hn⟩ := mem_checkGroup_shape ha
  · exact hn ▸ issue_ne_of_message
      (lit_msg_ne_subEnd 1 (by decide) (by simp only [groupKeyIssue]; decide) s e)
  · exact hn ▸ issue_ne_of_message
      (lit_msg_ne_subEnd 1 (by decide) (by simp only [groupValueIssue]; decide) s e)

lemma countP_subEnd_filter (cmds : List CommandEntry) :
    (checkFilterPlacement cmds).countP (fun i => decide (i = subEndIssue s e)) = 0 := by
  rw [List.countP_eq_zero]
  intro a ha
  simp only [decide_eq_true_eq]
  obtain ⟨n, rfl⟩ := mem_checkFilter_shape ha
  exact issue_ne_of_severity (by simp [filterIssue, subEndIssue])

lemma countP_subEnd_star (cmds : List CommandEntry) :
    (checkSelectStar cmds).countP (fun i => decide (i = subEndIssue s e)) = 0 := by
  rw [List.countP_eq_zero]
  intro a ha
  simp only [decide_eq_true_eq]
  obtain ⟨n, rfl⟩ := mem_checkStar_shape ha
  exact issue_ne_of_severity (by simp [selectStarIssue, subEndIssue])

lemma countP_subEnd_limit (cmds : List CommandEntry) :
    (checkLimitWithoutOrder cmds).countP (fun i => decide (i = subEndIssue s e)) = 0 := by
  rw [List.countP_eq_zero]
  intro a ha
  simp only [decide_eq_true_eq]
  obtain ⟨n, rfl⟩ := mem_checkLimit_shape ha
  exact issue_ne_of_severity (by simp [limitIssue, subEndIssue])

end SubEndCounts

/-- Splitting a membership in the full issue list into the nine checks. -/
lemma mem_allIssues_cases {q : List Char} {i : ValidationIssue} (h : i ∈ allIssues q) :
    i ∈ checkSyntax (splitLines (pyStrip q)) ∨
      i ∈ checkRequiredCommands (queryCommands q) ∨
      i ∈ checkCommandOrder (queryCommands q) ∨
      i ∈ checkUpdateRequiresGroup (queryCommands q) ∨
      i ∈ checkSubEndPairing (queryCommands q) ∨
      i ∈ checkGroupSyntax (queryCommands q) ∨
      i ∈ checkFilterPlacement (queryCommands q) ∨
      i ∈ checkSelectStar (queryCommands q) ∨
      i ∈ checkLimitWithoutOrder (queryCommands q) := by
  simp only [queryCommands]
  simp only [allIssues, List.mem_append] at h
  tauto

/-- A balance error reported on line `n` of the processed lines (0-based,
numbered from `k`) whose stripped text is not skipped lands in the syntax
issue list. -/
lemma errToIssue_mem_checkSyntaxAux :
    ∀ (ls : List (List Char)) (k n : Nat) (l : List Char) (e : BalErr),
      ls.get? n = some l → skipSyntax (pyStrip l) = false →
      rawScan (pyStrip l) [] false false = some e →
      errToIssue (k + n) e ∈ checkSyntaxAux k ls := by
  intro ls
  induction ls with
  | nil => intro k n l e h _ _; simp at h
  | cons l0 ls ih =>
    intro k n l e hget hskip hscan
    cases n with
    | zero =>
      simp at hget
      subst hget
      simp only [checkSyntaxAux, Nat.add_zero]
      apply List.mem_append_left
      rw [if_neg (by simp [hskip])]
      apply List.mem_append_left
      have hb : checkBracketBalance k (pyStrip l0) = some (errToIssue k e) := by
        unfold checkBracketBalance
        rw [hscan]
        rfl
      rw [hb]
      simp
    | succ m =>
      simp only [List.get?_cons_succ] at hget
      have h := ih (k + 1) m l e hget hskip hscan
      simp only [checkSyntaxAux]
      apply List.mem_append_right
      have harith : k + 1 + m = k + (m + 1) := by omega
      rwa [harith] at h

/-- An object-shape issue reported on line `n` of the processed lines
(0-based, numbered from `k`) whose stripped text is not skipped and contains
a brace lands in the syntax issue list. -/
lemma json_mem_checkSyntaxAux :
    ∀ (ls : List (List Char)) (k n : Nat) (l : List Char) (j : ValidationIssue),
      ls.get? n = some l → skipSyntax (pyStrip l) = false →
      (pyStrip l).contains '{' = true →
      checkJsonStructure (k + n) (pyStrip l) = some j →
      j ∈ checkSyntaxAux k ls := by
  intro ls
  induction ls with
  | nil => intro k n l j h _ _ _; simp at h
  | cons l0 ls ih =>
    intro k n l j hget hskip hbrace hjson
    cases n with
    | zero =>
      simp at hget
      subst hget
      rw [Nat.add_zero] at hjson
      simp only [checkSyntaxAux]
      apply List.mem_append_left
      rw [if_neg (by simp [hskip])]
      apply List.mem_append_right
      rw [if_pos hbrace, hjson]
      simp
    | succ m =>
      simp only [List.get?_cons_succ] at hget
      simp only [checkSyntaxAux]
      apply List.mem_append_right
      exact ih (k + 1) m l j hget hskip hbrace
        (by rw [show k + 1 + m = k + (m + 1) from by omega]; exact hjson)

/-! ## Command-order analysis for the loader-before-CATEGORY rule -/


lemma orderWarnIssue_inj {a b : Nat} (h : orderWarnIssue a = orderWarnIssue b) : a = b := by
  simpa [orderWarnIssue] using congrArg ValidationIssue.line h

lemma orderWarn_mem_orderAux (all : List CommandEntry) (L : Nat) :
    ∀ (rest : List CommandEntry) (prev : List Cmd),
      orderWarnIssue L ∈ checkCommandOrderAux all rest prev ↔
        ∃ (k : Nat) (hk : k < rest.length),
          ((rest.get ⟨k, hk⟩).name = Cmd.TAGLOAD ∨
            (rest.get ⟨k, hk⟩).name = Cmd.FLEXLOAD) ∧
          (rest.get ⟨k, hk⟩).line = L ∧
          Cmd.CATEGORY ∉ prev ++ (rest.take k).map (fun c => c.name) ∧
          hasCategoryRef all = false := by
  intro rest
  induction rest with
  | nil =>
    intro prev
    simp [checkCommandOrderAux]
  | cons c cs ih =>
    intro prev
    constructor
    · intro h
      rcases List.mem_append.mp h with h | h
      · split_ifs at h with h1 h2
        · simp at h
        · simp only [List.mem_singleton] at h
          have hL : L = c.line := orderWarnIssue_inj h
          refine ⟨0, by simp, ?_, ?_, ?_, ?_⟩
          · simpa using h1.1
          · simpa using hL.symm
          · simpa using h1.2
          · simpa using h2
        · simp at h
      · obtain ⟨m, hm, hname, hline, hnotin, hcat⟩ := (ih (prev ++ [c.name])).mp h
        refine ⟨m + 1, by simpa using Nat.succ_lt_succ hm, ?_, ?_, ?_, hcat⟩
        · simpa using hname
        · simpa using hline
        · rw [List.take_succ_cons, List.map_cons, List.append_cons] at *
          simpa [List.append_assoc] using hnotin
    · rintro ⟨k, hk, hname, hline, hnotin, hcat⟩
      cases k with
      | zero =>
        apply List.mem_append_left
        have hnotin0 : Cmd.CATEGORY ∉ prev := by simpa using hnotin
        rw [if_pos ⟨hname, hnotin0⟩, if_neg (by simp [hcat])]
        exact List.mem_singleton.mpr (by rw [← hline]; rfl)
      | succ m =>
        apply List.mem_append_right
        apply (ih (prev ++ [c.name])).mpr
        refine ⟨m, by simpa using Nat.lt_of_succ_lt_succ hk, ?_, ?_, ?_, hcat⟩
        · simpa using hname
        · simpa using hline
        · rw [List.take_succ_cons, List.map_cons, List.append_cons] at hnotin
          simpa [List.append_assoc] using hnotin

lemma parseAux_line_ge :
    ∀ (ls : List (List Char)) (i : Nat) (a : CommandEntry),
      a ∈ parseAux i ls → i ≤ a.line := by
  intro ls
  induction ls with
  | nil => intro i a h; simp [parseAux] at h
  | cons l ls ih =>
    intro i a h
    simp only [parseAux] at h
    rcases List.mem_append.mp h with h | h
    · split_ifs at h
      · simp at h
      · split at h
        · simp at h
          subst h
          exact Nat.le_refl i
        · simp at h
    · exact Nat.le_of_succ_le (ih (i + 1) a h)

lemma parseAux_pairwise :
    ∀ (ls : List (List Char)) (i : Nat),
      List.Pairwise (fun a b => a.line < b.line) (parseAux i ls) := by
  intro ls
  induction ls with
  | nil => intro i; simp [parseAux]
  | cons l ls ih =>
    intro i
    simp only [parseAux]
    rw [List.pairwise_append]
    refine ⟨?_, ih (i + 1), ?_⟩
    · split_ifs
      · simp
      · split
        · simp
        · simp
    · intro a ha b hb
      have hb' : i + 1 ≤ b.line := parseAux_line_ge ls (i + 1) b hb
      have ha' : a.line = i := by
        split_ifs at ha
        · simp at ha
        · split at ha
          · simp at ha
            subst ha
            rfl
          · simp at ha
      omega

/-- Distinct positions in the parsed command list carry distinct line
numbers. -/
lemma parseCommands_line_inj {lines : List (List Char)} {j k : Nat}
    (hj : j < (parseCommands lines).length) (hk : k < (parseCommands lines).length)
    (h : ((parseCommands lines).get ⟨j, hj⟩).line =
      ((parseCommands lines).get ⟨k, hk⟩).line) : j = k := by
  have hp : List.Pairwise (fun a b => a.line < b.line) (parseCommands lines) :=
    parseAux_pairwise lines 1
  have hg := List.pairwise_iff_get.mp hp
  rcases Nat.lt_trichotomy j k with hlt | he | hlt
  · have := hg ⟨j, hj⟩ ⟨k, hk⟩ hlt
    omega
  · exact he
  · have := hg ⟨k, hk⟩ ⟨j, hj⟩ hlt
    omega

/-! ## Claims -/

/-- C1: for every input query text, the `is_valid` component of the result of
`validate` is false if and only if at least one diagnostic in the returned
issues list has severity CRITICAL. -/
theorem claim_c1_validity_iff_critical (q : List Char) :
    (validate q).1 = false ↔
      ∃ i ∈ (validate q).2, i.severity = Severity.CRITICAL := by
  simp [validate, List.any_eq_true]

/-- C2: `validate` applied to the six-line query CATEGORY/TAGLOAD/FILTER/
GROUP/UPDATE/SELECT of the spec returns `is_valid = true` and an issue list
with zero diagnostics of severity CRITICAL. -/
theorem claim_c2_end_to_end_valid :
    (validate sampleQuery).1 = true ∧
      (validate sampleQuery).2.countP
        (fun i => i.severity == Severity.CRITICAL) = 0 := by
  constructor
  · decide
  · decide

/-- C3: the full issue list of a validation run contains the CRITICAL
missing-data-loader diagnostic (anchored at line 1) exactly once when the
classified command sequence has no TAGLOAD/FLEX-LOAD/ADDROW/APPEND entry and
no SUB entry, and never otherwise. -/
theorem claim_c3_missing_loader (q : List Char) :
    (validate q).2.countP (fun i => decide (i = missingLoaderIssue)) =
      if ¬ (∃ n ∈ (queryCommands q).map (fun (c : CommandEntry) => c.name), n ∈ dataLoaders) ∧
          Cmd.SUB ∉ (queryCommands q).map (fun (c : CommandEntry) => c.name)
      then 1 else 0 := by
  have hsplit : (validate q).2 =
      checkSyntax (splitLines (pyStrip q)) ++
        (checkRequiredCommands (queryCommands q) ++
            checkCommandOrderAux (queryCommands q) (queryCommands q) [] ++
            checkUpdateAux false (queryCommands q) ++
            checkSubEndPairing (queryCommands q) ++
            checkGroupSyntax (queryCommands q)) ++
        (checkFilterPlacement (queryCommands q) ++ checkSelectStar (queryCommands q) ++
          checkLimitWithoutOrder (queryCommands q)) := rfl
  rw [hsplit]
  simp only [List.countP_append]
  rw [countP_missing_structural, countP_missing_order, countP_missing_update,
    countP_missing_subEnd, countP_missing_group, countP_missing_filter,
    countP_missing_star, countP_missing_limit]
  simp only [Nat.add_zero, Nat.zero_add]
  simp only [checkRequiredCommands, queryCommands]
  split_ifs with hc
  · simp
  · simp

/-- C4: a validation run emits the CRITICAL SUB/END diagnostic, anchored at
line 1 and reporting the two counts in its message, exactly once when the
number of SUB entries differs from the number of END entries, and emits no
SUB/END diagnostic at all (no issue whose message has that form, for any
counts) when they are equal, regardless of interleaving. -/
theorem claim_c4_sub_end_pairing (q : List Char) :
    ((validate q).2.countP (fun i => decide (i =
        subEndIssue ((queryCommands q).countP (fun c => c.name == Cmd.SUB))
          ((queryCommands q).countP (fun c => c.name == Cmd.END)))) =
      if (queryCommands q).countP (fun c => c.name == Cmd.SUB) =
          (queryCommands q).countP (fun c => c.name == Cmd.END)
      then 0 else 1) ∧
    ((queryCommands q).countP (fun c => c.name == Cmd.SUB) =
        (queryCommands q).countP (fun c => c.name == Cmd.END) →
      ∀ i ∈ (validate q).2, ∀ a b : Nat, i.message ≠ subEndMsg a b) := by
  have hsplit : (validate q).2 =
      checkSyntax (splitLines (pyStrip q)) ++
        (checkRequiredCommands (queryCommands q) ++
            checkCommandOrderAux (queryCommands q) (queryCommands q) [] ++
            checkUpdateAux false (queryCommands q) ++
            checkSubEndPairing (queryCommands q) ++
            checkGroupSyntax (queryCommands q)) ++
        (checkFilterPlacement (queryCommands q) ++ checkSelectStar (queryCommands q) ++
          checkLimitWithoutOrder (queryCommands q)) := rfl
  constructor
  · rw [hsplit]
    simp only [List.countP_append]
    rw [countP_subEnd_structural, countP_subEnd_required, countP_subEnd_order,
      countP_subEnd_update, countP_subEnd_group, countP_subEnd_filter,
      countP_subEnd_star, countP_subEnd_limit]
    simp only [Nat.add_zero, Nat.zero_add]
    simp only [checkSubEndPairing]
    rcases eq_or_ne ((queryCommands q).countP (fun c => c.name == Cmd.SUB))
        ((queryCommands q).countP (fun c => c.name == Cmd.END)) with he | he
    · rw [if_neg (by simpa using he), if_pos he]
      rfl
    · rw [if_pos he, if_neg he]
      simp
  · intro heq i hi a b
    rcases mem_allIssues_cases hi with h | h | h | h | h | h | h | h | h
    · rcases mem_checkSyntaxAux 1 _ h with ⟨n, e2, rfl⟩ | ⟨_, hmsg⟩
      · exact errToIssue_msg_ne_subEnd n e2 a b
      · exact hmsg ▸ lit_msg_ne_subEnd 1 (by decide) (by decide) a b
    · rw [mem_checkRequired h]
      exact lit_msg_ne_subEnd 4 (by decide) (by decide) a b
    · obtain ⟨n, rfl⟩ := mem_checkCommandOrderAux_shape _ _ h
      exact lit_msg_ne_subEnd 1 (by decide) (by simp only [orderWarnIssue]; decide) a b
    · obtain ⟨n, rfl⟩ := mem_checkUpdateAux_shape _ _ h
      exact lit_msg_ne_subEnd 1 (by decide) (by simp only [updateIssue]; decide) a b
    · simp only [checkSubEndPairing] at h
      rw [if_neg (by simpa using heq)] at h
      simp at h
    · obtain ⟨n, hn | hn⟩ := mem_checkGroup_shape h
      · exact hn ▸ lit_msg_ne_subEnd 1 (by decide)
          (by simp only [groupKeyIssue]; decide) a b
      · exact hn ▸ lit_msg_ne_subEnd 1 (by decide)
          (by simp only [groupValueIssue]; decide) a b
    · obtain ⟨n, rfl⟩ := mem_checkFilter_shape h
      exact lit_msg_ne_subEnd 1 (by decide) (by simp only [filterIssue]; decide) a b
    · obtain ⟨n, rfl⟩ := mem_checkStar_shape h
      exact lit_msg_ne_subEnd 1 (by decide) (by simp only [selectStarIssue]; decide) a b
    · obtain ⟨n, rfl⟩ := mem_checkLimit_shape h
      exact lit_msg_ne_subEnd 1 (by decide) (by simp only [limitIssue]; decide) a b

/-- C4 witness: on the query SUB (a: 1) / SUB (b: 2) / END — two SUB entries,
one END entry — the run emits the SUB/END diagnostic exactly once. -/
theorem claim_c4_sub_end_pairing_witness :
    (validate ("SUB \x7ba: 1\x7d\nSUB \x7bb: 2\x7d\nEND").data).2.countP
        (fun i => decide (i = subEndIssue 2 1)) = 1 := by
  have h := (claim_c4_sub_end_pairing ("SUB \x7ba: 1\x7d\nSUB \x7bb: 2\x7d\nEND").data).1
  have hs : (queryCommands ("SUB \x7ba: 1\x7d\nSUB \x7bb: 2\x7d\nEND").data).countP
      (fun c => c.name == Cmd.SUB) = 2 := by decide
  have he : (queryCommands ("SUB \x7ba: 1\x7d\nSUB \x7bb: 2\x7d\nEND").data).countP
      (fun c => c.name == Cmd.END) = 1 := by decide
  rw [hs, he] at h
  rw [if_neg (by decide)] at h
  rw [← hs, ← he]
  exact h

/-- C7 counterexample: on the single line SELECT [a, b (missing the closing
bracket) the code emits two CRITICAL diagnostics, not exactly one: the
unclosed-bracket diagnostic and the missing-data-loader diagnostic. -/
theorem claim_c7_counterexample :
    (validate ("SELECT [a, b").data).2.countP
      (fun i => i.severity == Severity.CRITICAL) = 2 := by
  decide

/-- C7 amended: on the single line SELECT [a, b the issue list is exactly an
unclosed-bracket CRITICAL diagnostic naming the bracket at line 1, followed
by the CRITICAL missing-data-loader diagnostic (the line is not classified as
a command, so the data-loader check also fires). -/
theorem claim_c7_amended :
    (validate ("SELECT [a, b").data).2 =
      [errToIssue 1 (BalErr.unclosed '['), missingLoaderIssue] := by
  decide

/-- C9: `validate` returns exactly the same result on a query and on its
whitespace-stripped form — the first step of `validate` strips the input, and
stripping is idempotent, so line numbers are relative to the stripped text. -/
theorem claim_c9_strip_invariance (q : List Char) :
    validate (pyStrip q) = validate q := by
  unfold validate allIssues
  rw [pyStrip_idem]

/-- C10: `validate` on the empty string returns `is_valid = false` with
exactly one diagnostic, the CRITICAL missing-data-loader diagnostic anchored
at line 1. -/
theorem claim_c10_empty_query :
    validate [] = (false, [missingLoaderIssue]) := by
  decide

/-- C8 counterexample: the three-character line backslash-[-] has equal
matching counts of square brackets in correct nesting order (its delimiter
characters form the Dyck word [ ]) and contains no quote characters at all —
so the claim's precondition holds — yet the checker emits the CRITICAL
unmatched-closing-bracket diagnostic: the backslash escape makes the scan
skip the opener even outside any string. -/
theorem claim_c8_counterexample :
    Dyck (("\\[]").data.filter isDelim) ∧
      ("\\[]").data.all (fun c => !(c == '"' || c == '\'')) = true ∧
      checkBracketBalance 1 ("\\[]").data =
        some (errToIssue 1 (BalErr.unmatched ']')) := by
  refine ⟨?_, by decide, by decide⟩
  have hf : ("\\[]").data.filter isDelim = ['[', ']'] := by decide
  rw [hf]
  exact Dyck.wrap '[' (by decide) Dyck.nil

/-- C8 amended: balance soundness holds once the precondition also excludes
backslash-escaped delimiters.  If the delimiters of a line are exactly the
ones the string-aware scan interprets (no delimiters inside quoted spans and
none skipped by a backslash escape) and they form a correctly nested Dyck
word, the bracket-balance check emits no diagnostic for that line. -/
theorem claim_c8_balance_soundness (n : Nat) (l : List Char)
    (hpure : effDelims l false false = l.filter isDelim)
    (hd : Dyck (l.filter isDelim)) :
    checkBracketBalance n l = none := by
  unfold checkBracketBalance
  rw [rawScan_eq_pureScan, hpure]
  have h := pureScan_dyck hd [] []
  rw [List.append_nil] at h
  rw [h]
  rfl

/-- C8 amended witness: the line SELECT [a, "b"] — quotes present, balanced
square brackets, no delimiter inside the quoted span, no backslash — gets no
balance diagnostic. -/
theorem claim_c8_balance_soundness_witness :
    checkBracketBalance 1 ("SELECT [a, \"b\"]").data = none := by
  apply claim_c8_balance_soundness
  · decide
  · have hf : (("SELECT [a, \"b\"]").data).filter isDelim = ['[', ']'] := by decide
    rw [hf]
    exact Dyck.wrap '[' (by decide) Dyck.nil

/-- C6 counterexample: the line "# [" is not classified as a command and has
unbalanced delimiters by the checker's own scan, yet the validation output
contains no balance diagnostic at all — only the missing-data-loader
diagnostic — because the structural checker skips lines starting with '#'. -/
theorem claim_c6_counterexample :
    rawScan ("# [").data [] false false = some (BalErr.unclosed '[') ∧
      (validate ("# [").data).2 = [missingLoaderIssue] := by
  constructor
  · decide
  · decide

/-- C6 amended: both Structural Checker sub-checks — delimiter balance and
object shape — run over every line of the input whose stripped text is
nonempty and does not start with '#' or '//', whether or not the line is
classified as a command: any balance error the scan reports on such a line
appears in the validation output, and so does the object-shape issue when
the line contains a brace (e.g. an unclassified '--' comment line, as in
the witness).  Lines starting with '#' or '//' are skipped by both. -/
theorem claim_c6_amended (q : List Char) (n : Nat) (l : List Char)
    (hline : (splitLines (pyStrip q)).get? n = some l)
    (hskip : skipSyntax (pyStrip l) = false) :
    (∀ e : BalErr, rawScan (pyStrip l) [] false false = some e →
      errToIssue (n + 1) e ∈ (validate q).2) ∧
    ((pyStrip l).contains '{' = true →
      ∀ j : ValidationIssue, checkJsonStructure (n + 1) (pyStrip l) = some j →
        j ∈ (validate q).2) := by
  constructor
  · intro e he
    have h := errToIssue_mem_checkSyntaxAux (splitLines (pyStrip q)) 1 n l e hline hskip he
    rw [Nat.add_comm 1 n] at h
    show errToIssue (n + 1) e ∈ allIssues q
    unfold allIssues
    exact List.mem_append_left _ (List.mem_append_left _ h)
  · intro hbrace j hj
    have hj2 : checkJsonStructure (1 + n) (pyStrip l) = some j := by
      rwa [Nat.add_comm 1 n]
    have h := json_mem_checkSyntaxAux (splitLines (pyStrip q)) 1 n l j hline hskip hbrace hj2
    show j ∈ allIssues q
    unfold allIssues
    exact List.mem_append_left _ (List.mem_append_left _ h)

/-- C6 amended witness: the first line of the query is the unclassified
comment line "-- (a: 1) [" (brace-delimited span with an unquoted field name,
followed by an unclosed bracket): both the unclosed-bracket CRITICAL
diagnostic and the object-shape INFO diagnostic for line 1 are in the
validation output. -/
theorem claim_c6_amended_witness :
    errToIssue 1 (BalErr.unclosed '[') ∈
        (validate ("-- \x7ba: 1\x7d [\nTAGLOAD").data).2 ∧
      ValidationIssue.mk Severity.INFO 1 jsonMsg
          (some ("Consider using quotes: a").data) ∈
        (validate ("-- \x7ba: 1\x7d [\nTAGLOAD").data).2 := by
  have h := claim_c6_amended ("-- \x7ba: 1\x7d [\nTAGLOAD").data 0
      ("-- \x7ba: 1\x7d [").data (by decide) (by decide)
  exact ⟨h.1 (BalErr.unclosed '[') (by decide), h.2 (by decide) _ (by decide)⟩

/-- C5 amended: for a TAGLOAD or FLEX-LOAD entry at position `k` of the
classified command sequence, the data-loader-before-CATEGORY WARNING at that
entry's line is emitted exactly when no CATEGORY entry precedes it in the
sequence and no classified command entry's raw text contains "$category".
(The source scans `self.commands`, not the raw lines: a "$category" occurring
only on an unclassified line does not suppress the warning.) -/
theorem claim_c5_amended (q : List Char) (k : Nat)
    (hk : k < (queryCommands q).length)
    (htag : ((queryCommands q).get ⟨k, hk⟩).name = Cmd.TAGLOAD ∨
      ((queryCommands q).get ⟨k, hk⟩).name = Cmd.FLEXLOAD) :
    orderWarnIssue ((queryCommands q).get ⟨k, hk⟩).line ∈ (validate q).2 ↔
      (Cmd.CATEGORY ∉ ((queryCommands q).take k).map (fun (c : CommandEntry) => c.name) ∧
        hasCategoryRef (queryCommands q) = false) := by
  constructor
  · intro hmem
    rcases mem_allIssues_cases hmem with h | h | h | h | h | h | h | h | h
    · rcases mem_checkSyntaxAux 1 _ h with ⟨n, e, he⟩ | ⟨hsev, _⟩
      · exact absurd (congrArg ValidationIssue.severity he)
          (by simp [orderWarnIssue, errToIssue]; cases e <;> simp [errToIssue])
      · exact absurd hsev (by simp [orderWarnIssue])
    · exact absurd (congrArg ValidationIssue.severity (mem_checkRequired h))
        (by simp [orderWarnIssue, missingLoaderIssue])
    · rw [show checkCommandOrder (queryCommands q) =
          checkCommandOrderAux (queryCommands q) (queryCommands q) [] from rfl] at h
      obtain ⟨j, hj, htag2, hline2, hnotin2, hcat2⟩ :=
        (orderWarn_mem_orderAux (queryCommands q) _ (queryCommands q) []).mp h
      have hjk : j = k := parseCommands_line_inj hj hk hline2
      subst hjk
      refine ⟨by simpa using hnotin2, hcat2⟩
    · obtain ⟨n, hn⟩ := mem_checkUpdateAux_shape _ _ h
      exact absurd (congrArg ValidationIssue.severity hn)
        (by simp [orderWarnIssue, updateIssue])
    · obtain ⟨a, b, hn⟩ := mem_checkSubEnd_shape h
      exact absurd (congrArg ValidationIssue.severity hn)
        (by simp [orderWarnIssue, subEndIssue])
    · obtain ⟨n, hn | hn⟩ := mem_checkGroup_shape h
      · exact absurd (congrArg ValidationIssue.severity hn)
          (by simp [orderWarnIssue, groupKeyIssue])
      · exact absurd (congrArg ValidationIssue.severity hn)
          (by simp [orderWarnIssue, groupValueIssue])
    · obtain ⟨n, hn⟩ := mem_checkFilter_shape h
      exact absurd (congrArg ValidationIssue.message hn)
        (by simp only [orderWarnIssue, filterIssue]; decide)
    · obtain ⟨n, hn⟩ := mem_checkStar_shape h
      exact absurd (congrArg ValidationIssue.message hn)
        (by simp only [orderWarnIssue, selectStarIssue]; decide)
    · obtain ⟨n, hn⟩ := mem_checkLimit_shape h
      exact absurd (congrArg ValidationIssue.severity hn)
        (by simp [orderWarnIssue, limitIssue])
  · rintro ⟨hnotin, hcat⟩
    have hord : orderWarnIssue ((queryCommands q).get ⟨k, hk⟩).line ∈
        checkCommandOrderAux (queryCommands q) (queryCommands q) [] :=
      (orderWarn_mem_orderAux (queryCommands q) _ (queryCommands q) []).mpr
        ⟨k, hk, htag, rfl, by simpa using hnotin, hcat⟩
    show _ ∈ allIssues q
    have hsplit : allIssues q =
        checkSyntax (splitLines (pyStrip q)) ++
          (checkRequiredCommands (queryCommands q) ++
              checkCommandOrderAux (queryCommands q) (queryCommands q) [] ++
              checkUpdateAux false (queryCommands q) ++
              checkSubEndPairing (queryCommands q) ++
              checkGroupSyntax (queryCommands q)) ++
          (checkFilterPlacement (queryCommands q) ++ checkSelectStar (queryCommands q) ++
            checkLimitWithoutOrder (queryCommands q)) := rfl
    rw [hsplit]
    apply List.mem_append_left
    apply List.mem_append_right
    apply List.mem_append_left
    apply List.mem_append_left
    apply List.mem_append_left
    exact List.mem_append_right _ hord

/-- C5 counterexample: on the two-line query "$category" / TAGLOAD, the raw
(unclassified) first line contains "$category", yet the WARNING is still
emitted at line 2 — the claim predicts its suppression by any raw line. -/
theorem claim_c5_counterexample :
    orderWarnIssue 2 ∈ (validate ("$category\nTAGLOAD").data).2 ∧
      ∃ l ∈ splitLines (pyStrip ("$category\nTAGLOAD").data),
        containsSub ("$category").data l = true := by
  refine ⟨by decide, ?_⟩
  decide

/-- C5 amended witness: a lone TAGLOAD line (no CATEGORY anywhere, no
"$category" in any command raw text) receives the WARNING at line 1. -/
theorem claim_c5_amended_witness :
    orderWarnIssue 1 ∈ (validate ("TAGLOAD").data).2 := by
  have h := (claim_c5_amended ("TAGLOAD").data 0 (by decide)
      (Or.inl (by decide))).mpr ⟨by decide, by decide⟩
  exact h

end MXQL
